import Mathlib

/-!
Verification of the poll/vote core of the repository (Django app `polls`).

The relational store (models.py), the vote-admission pipeline
(serializers.py VoteSerializer), poll creation (PollCreateSerializer), the
results aggregator (views.py PollViewSet.results) and the voter-identity
resolver (services.py get_voter_identifier) are embedded as pure functions
over an explicit store.  Timestamps are naturals; the database tables are
lists kept in insertion order; primary keys are allocated from counters,
mirroring autoincrement ids.
-/

namespace PollApp

/-- Row of the Poll table (models.py, class Poll). -/
structure PollRow where
  id : Nat
  title : String
  description : String
  created_at : Nat
  expires_at : Option Nat
  is_active : Bool
deriving DecidableEq, Repr

/-- Row of the Option table (models.py, class Option). -/
structure OptionRow where
  id : Nat
  pollId : Nat
  text : String
  order : Int
deriving DecidableEq, Repr

/-- Row of the Vote table (models.py, class Vote). -/
structure VoteRow where
  id : Nat
  pollId : Nat
  optionId : Nat
  voter_identifier : String
  voted_at : Nat
deriving DecidableEq, Repr

/-- The relational store: the three tables in insertion order plus the
autoincrement counters for their primary keys. -/
structure Store where
  polls : List PollRow
  options : List OptionRow
  votes : List VoteRow
  nextPollId : Nat
  nextOptionId : Nat
  nextVoteId : Nat
deriving DecidableEq, Repr

def emptyStore : Store :=
  { polls := [], options := [], votes := [], nextPollId := 1, nextOptionId := 1, nextVoteId := 1 }

/-- Option.objects.get(id=...). -/
def findOption (s : Store) (option_id : Nat) : Option OptionRow :=
  s.options.find? (fun o => o.id == option_id)

/-- Poll lookup by primary key (dereference of a poll foreign key). -/
def findPoll (s : Store) (poll_id : Nat) : Option PollRow :=
  s.polls.find? (fun p => p.id == poll_id)

/-- Poll.is_expired (models.py): expiry set and now past it. -/
def is_expired (p : PollRow) (now : Nat) : Bool :=
  match p.expires_at with
  | none => false
  | some t => now > t

/-- Poll.user_has_voted (models.py): a Vote row for (poll, voter) exists. -/
def user_has_voted (s : Store) (poll_id : Nat) (voter_identifier : String) : Bool :=
  s.votes.any (fun v => v.pollId == poll_id && v.voter_identifier == voter_identifier)

/-- The vote-admission failures raised by VoteSerializer (serializers.py). -/
inductive AdmissionError where
  | OptionNotFound
  | OptionPollMismatch
  | PollInactive
  | PollExpired
  | DuplicateVote
deriving DecidableEq, Repr

/-- Outcome of one cast-vote request.  internalErr covers failures the code
does not translate into a domain error: an uncaught storage-layer
IntegrityError from the insert, or a dangling option-to-poll foreign key. -/
inductive CastResult where
  | ok (v : VoteRow)
  | err (e : AdmissionError)
  | internalErr
deriving DecidableEq, Repr

/-- Outcome of the validation phase of VoteSerializer (validate_option_id
followed by validate), before any insert. -/
inductive ValidateOutcome where
  | proceed (poll : PollRow) (option : OptionRow)
  | failed (e : AdmissionError)
  | danglingPoll
deriving DecidableEq, Repr

/-- VoteSerializer.validate_option_id plus VoteSerializer.validate
(serializers.py lines 109-145), in source order: option exists, owning poll
active, owning poll not expired, owning poll equals the poll from the URL,
no prior vote by this voter. -/
def voteValidate (s : Store) (poll_id option_id : Nat) (voter_identifier : String) (now : Nat) :
    ValidateOutcome :=
  match findOption s option_id with
  | none => .failed .OptionNotFound
  | some option =>
    match findPoll s option.pollId with
    | none => .danglingPoll
    | some poll =>
      if poll.is_active = false then .failed .PollInactive
      else if is_expired poll now then .failed .PollExpired
      else if poll.id != poll_id then .failed .OptionPollMismatch
      else if user_has_voted s poll.id voter_identifier then .failed .DuplicateVote
      else .proceed poll option

/-- The database insert of a Vote row.  The storage layer enforces the
UniqueConstraint on (poll, voter_identifier) (models.py Vote.Meta,
unique_vote_per_poll): a violating insert fails and leaves the table
unchanged; the error models the IntegrityError the database raises. -/
def voteInsert (s : Store) (poll_id option_id : Nat) (voter_identifier : String) (now : Nat) :
    Except Unit (VoteRow × Store) :=
  if user_has_voted s poll_id voter_identifier then
    .error ()
  else
    let v : VoteRow :=
      { id := s.nextVoteId, pollId := poll_id, optionId := option_id,
        voter_identifier := voter_identifier, voted_at := now }
    .ok (v, { s with votes := s.votes ++ [v], nextVoteId := s.nextVoteId + 1 })

/-- One sequential cast-vote request: VoteSerializer validation followed by
VoteSerializer.create (serializers.py lines 147-151).  The create method
wraps the insert in no try/except, so a constraint violation surfaces as an
internal failure, not as a domain error. -/
def cast_vote (s : Store) (poll_id option_id : Nat) (voter_identifier : String) (now : Nat) :
    CastResult × Store :=
  match voteValidate s poll_id option_id voter_identifier now with
  | .failed e => (.err e, s)
  | .danglingPoll => (.internalErr, s)
  | .proceed poll option =>
    match voteInsert s poll.id option.id voter_identifier now with
    | .ok (v, s2) => (.ok v, s2)
    | .error _ => (.internalErr, s)

/-! ### Input validation for poll creation (serializers.py, validators.py)

django.utils.html.strip_tags is external library code; it is modelled here
as a scanner that removes every segment from a LT character through the
next GT character (an unterminated tag swallows the rest, as the HTML
parser underlying strip_tags does).  The script-tag regex of
validate_no_script_tags is modelled as a lowercase substring search. -/

/-- Python str.strip: drop leading and trailing whitespace. -/
def pyStrip (s : String) : String :=
  ⟨((s.data.dropWhile Char.isWhitespace).reverse.dropWhile Char.isWhitespace).reverse⟩

/-- Python len on a string: number of characters. -/
def pyLen (s : String) : Nat :=
  s.data.length

def lowerChar (c : Char) : Char :=
  if 65 ≤ c.toNat && c.toNat ≤ 90 then Char.ofNat (c.toNat + 32) else c

/-- Python str.lower restricted to ASCII, all the regex needs. -/
def pyLower (s : String) : String :=
  ⟨s.data.map lowerChar⟩

def stripTagsGo : Bool → List Char → List Char
  | _, [] => []
  | true, c :: cs => if c = '>' then stripTagsGo false cs else stripTagsGo true cs
  | false, c :: cs => if c = '<' then stripTagsGo true cs else c :: stripTagsGo false cs

def stripTags (s : String) : String :=
  ⟨stripTagsGo false s.data⟩

def listStartsWith : List Char → List Char → Bool
  | [], _ => true
  | _ :: _, [] => false
  | p :: ps, c :: cs => p == c && listStartsWith ps cs

def listHasSub (pat : List Char) : List Char → Bool
  | [] => listStartsWith pat []
  | c :: cs => listStartsWith pat (c :: cs) || listHasSub pat (cs)

def containsScriptTag (s : String) : Bool :=
  listHasSub "<script".data (pyLower s).data

/-- The distinct validation failures of PollCreateSerializer. -/
inductive ValidationError where
  | titleEmpty
  | titleHtml
  | titleScript
  | titleTooLong
  | descriptionHtml
  | descriptionScript
  | descriptionTooLong
  | tooFewOptions
  | optionHtml
  | optionScript
deriving DecidableEq, Repr

/-- One element of the options payload of a create request. -/
structure OptionInput where
  text : String
  order : Int
deriving DecidableEq, Repr

/-- Body of a POST /polls/ request. -/
structure CreatePollInput where
  title : String
  description : String
  expires_at : Option Nat
  is_active : Bool
  options : List OptionInput
deriving DecidableEq, Repr

/-- PollCreateSerializer.validate_title (serializers.py lines 48-62). -/
def validate_title (value : String) : Except ValidationError String :=
  if pyStrip value = "" then .error .titleEmpty
  else
    let v := pyStrip value
    if stripTags v != v then .error .titleHtml
    else if containsScriptTag v then .error .titleScript
    else if pyLen v > 200 then .error .titleTooLong
    else .ok v

/-- PollCreateSerializer.validate_description (serializers.py lines 64-74). -/
def validate_description (value : String) : Except ValidationError String :=
  if value = "" then .ok value
  else
    let v := pyStrip value
    if stripTags v != v then .error .descriptionHtml
    else if containsScriptTag v then .error .descriptionScript
    else if pyLen v > 1000 then .error .descriptionTooLong
    else .ok v

def validate_option_text (o : OptionInput) : Except ValidationError OptionInput :=
  let t := pyStrip o.text
  if stripTags t != t then .error .optionHtml
  else if containsScriptTag t then .error .optionScript
  else .ok { o with text := t }

def validateOptionList : List OptionInput → Except ValidationError (List OptionInput)
  | [] => .ok []
  | o :: os =>
    match validate_option_text o with
    | .error e => .error e
    | .ok o2 =>
      match validateOptionList os with
      | .error e => .error e
      | .ok os2 => .ok (o2 :: os2)

/-- PollCreateSerializer.validate_options (serializers.py lines 76-89):
fewer than 2 options is rejected before any per-option sanitation. -/
def validate_options (value : List OptionInput) : Except ValidationError (List OptionInput) :=
  if value.length < 2 then .error .tooFewOptions
  else validateOptionList value

/-- Field validation of PollCreateSerializer.  DRF collects the errors of
all fields; only the presence of a failure matters here, so the fields are
checked in declaration order and the first failure is reported. -/
def validatePollInput (inp : CreatePollInput) : Except ValidationError CreatePollInput :=
  match validate_title inp.title with
  | .error e => .error e
  | .ok t =>
    match validate_description inp.description with
    | .error e => .error e
    | .ok d =>
      match validate_options inp.options with
      | .error e => .error e
      | .ok os => .ok { inp with title := t, description := d, options := os }

def buildOptionRows : Nat → Nat → List OptionInput → List OptionRow
  | _, _, [] => []
  | pollId, nextId, o :: os =>
    { id := nextId, pollId := pollId, text := o.text, order := o.order }
      :: buildOptionRows pollId (nextId + 1) os

/-- PollViewSet.create plus PollCreateSerializer.create (serializers.py
lines 91-99): validation runs first; only on success is the Poll row
persisted followed by one Option row per options element. -/
def create_poll (s : Store) (inp : CreatePollInput) (now : Nat) :
    (Except ValidationError PollRow) × Store :=
  match validatePollInput inp with
  | .error e => (.error e, s)
  | .ok v =>
    let poll : PollRow :=
      { id := s.nextPollId, title := v.title, description := v.description,
        created_at := now, expires_at := v.expires_at, is_active := v.is_active }
    let opts := buildOptionRows poll.id s.nextOptionId v.options
    (.ok poll,
      { s with polls := s.polls ++ [poll],
               options := s.options ++ opts,
               nextPollId := s.nextPollId + 1,
               nextOptionId := s.nextOptionId + v.options.length })

/-- A PATCH /polls/{id}/ body.  PollDetailSerializer marks id, created_at,
is_expired and options read-only, so exactly these four fields are
writable. -/
structure PollPatch where
  title : Option String
  description : Option String
  expires_at : Option (Option Nat)
  is_active : Option Bool
deriving DecidableEq, Repr

def applyPatch (patch : PollPatch) (p : PollRow) : PollRow :=
  { p with
    title := patch.title.getD p.title,
    description := patch.description.getD p.description,
    expires_at := patch.expires_at.getD p.expires_at,
    is_active := patch.is_active.getD p.is_active }

/-- PollViewSet.partial_update through PollDetailSerializer: only the
writable fields of the addressed Poll row change. -/
def update_poll (s : Store) (pid : Nat) (patch : PollPatch) : Store :=
  { s with polls := s.polls.map (fun p => if p.id == pid then applyPatch patch p else p) }

/-- PollViewSet.destroy: deleting a poll cascades to its Options and to the
Votes reachable through either foreign key (models.py on_delete=CASCADE). -/
def delete_poll (s : Store) (pid : Nat) : Store :=
  let deadOptions := s.options.filter (fun o => o.pollId == pid)
  { s with
    polls := s.polls.filter (fun p => !(p.id == pid)),
    options := s.options.filter (fun o => !(o.pollId == pid)),
    votes := s.votes.filter
      (fun v => !(v.pollId == pid || deadOptions.any (fun o => o.id == v.optionId))) }

/-! ### Results aggregation (views.py PollViewSet.results, serializers.py
OptionResultSerializer)

An ORDER BY over a table kept in insertion order is modelled as a stable
insertion sort. -/

def insertBy {α : Type} (lt : α → α → Bool) (x : α) : List α → List α
  | [] => [x]
  | y :: ys => if lt y x then y :: insertBy lt x ys else x :: y :: ys

def sortBy {α : Type} (lt : α → α → Bool) (l : List α) : List α :=
  l.foldr (insertBy lt) []

/-- Comparison used by order_by with the single key order. -/
def orderLt (a b : OptionRow) : Bool :=
  decide (a.order < b.order)

/-- Comparison for the default Option ordering, Meta.ordering with keys
order then id (models.py lines 54-55). -/
def lexLt (a b : OptionRow) : Bool :=
  decide (a.order < b.order) || (decide (a.order = b.order) && decide (a.id < b.id))

/-- The options owned by a poll, in table order. -/
def pollOptions (s : Store) (pid : Nat) : List OptionRow :=
  s.options.filter (fun o => o.pollId == pid)

/-- poll.options.annotate(votes_total=Count(votes)).order_by(order) as used
by PollViewSet.results (views.py lines 289-291): explicit order_by replaces
the default Meta ordering, so the one sort key is order. -/
def results_options (s : Store) (pid : Nat) : List OptionRow :=
  sortBy orderLt (pollOptions s pid)

/-- The nested options of the poll detail view, which come through the
related manager under the default Meta.ordering [order, id]. -/
def detail_options (s : Store) (pid : Nat) : List OptionRow :=
  sortBy lexLt (pollOptions s pid)

/-- Count of Vote rows referencing an option (the votes_total annotation). -/
def vote_count (s : Store) (o : OptionRow) : Nat :=
  (s.votes.filter (fun v => v.optionId == o.id)).length

/-- Round to nearest integer, ties to even, mirroring the Python built-in
round applied to the exact rational value. -/
def roundHalfEven (q : ℚ) : ℤ :=
  let f := ⌊q⌋
  let r := q - f
  if r < 1 / 2 then f
  else if 1 / 2 < r then f + 1
  else if f % 2 = 0 then f else f + 1

/-- round(x, 2) on the exact rational value. -/
def round2 (q : ℚ) : ℚ :=
  (roundHalfEven (q * 100) : ℚ) / 100

/-- OptionResultSerializer.get_percentage (serializers.py lines 167-173). -/
def get_percentage (voteCount totalVotes : Nat) : ℚ :=
  if totalVotes == 0 then 0
  else round2 ((voteCount : ℚ) / (totalVotes : ℚ) * 100)

structure OptionResult where
  id : Nat
  text : String
  vote_count : Nat
  percentage : ℚ
deriving DecidableEq, Repr

structure ResultsPayload where
  total_votes : Nat
  options : List OptionResult
deriving DecidableEq, Repr

/-- PollViewSet.results (views.py lines 279-310): options of the poll with
their annotated counts sorted by order, total as the sum of the annotated
counts, percentages computed against that total. -/
def get_results (s : Store) (pid : Nat) : ResultsPayload :=
  let opts := results_options s pid
  let total := (opts.map (fun o => vote_count s o)).sum
  { total_votes := total,
    options := opts.map (fun o =>
      { id := o.id, text := o.text, vote_count := vote_count s o,
        percentage := get_percentage (vote_count s o) total }) }

/-! ### Identity resolver (services.py get_voter_identifier) -/

/-- The request-level signals the resolver reads.  The META values model
Python: an absent header is none, and a present but empty value is falsy
exactly like an absent one. -/
structure Request where
  user_is_authenticated : Bool
  user_id : Nat
  http_x_forwarded_for : Option String
  remote_addr : Option String
  session_key : Option String
deriving DecidableEq, Repr

/-- x_forwarded_for.split(',')[0].strip(). -/
def firstForwardedHop (xff : String) : String :=
  pyStrip ⟨xff.data.takeWhile (fun c => c != ',')⟩

/-- The ip value the resolver computes, none when it is falsy. -/
def client_ip (r : Request) : Option String :=
  let ip : Option String :=
    match r.http_x_forwarded_for with
    | some xff => if xff = "" then r.remote_addr else some (firstForwardedHop xff)
    | none => r.remote_addr
  match ip with
  | some a => if a = "" then none else some a
  | none => none

/-- The session fallback: reuse the session key when one exists, else
create one (request.session.create, modelled by the freshKey argument) and
persist it on the session. -/
def sessionFallback (r : Request) (freshKey : String) : String × Request :=
  match r.session_key with
  | some k =>
    if k = "" then ("session_" ++ freshKey, { r with session_key := some freshKey })
    else ("session_" ++ k, r)
  | none => ("session_" ++ freshKey, { r with session_key := some freshKey })

/-- services.py get_voter_identifier: authenticated user id first, then
client IP, then session key. -/
def get_voter_identifier (r : Request) (freshKey : String) : String × Request :=
  if r.user_is_authenticated then ("user_" ++ toString r.user_id, r)
  else
    match client_ip r with
    | some a => ("ip_" ++ a, r)
    | none => sessionFallback r freshKey

/-! ### Reachable stores -/

/-- The operations of the API surface that write to the store. -/
inductive AdminOp where
  | create (inp : CreatePollInput) (now : Nat)
  | vote (poll_id option_id : Nat) (voter : String) (now : Nat)
  | edit (pid : Nat) (patch : PollPatch)
  | remove (pid : Nat)

def applyOp (s : Store) (op : AdminOp) : Store :=
  match op with
  | .create inp now => (create_poll s inp now).2
  | .vote pid oid voter now => (cast_vote s pid oid voter now).2
  | .edit pid patch => update_poll s pid patch
  | .remove pid => delete_poll s pid

/-- A store is reachable when some sequence of API operations produces it
from the empty store. -/
def Reachable (s : Store) : Prop :=
  ∃ ops : List AdminOp, s = ops.foldl applyOp emptyStore

/-- At most one Vote row per (poll, voter_identifier) pair: the property
the unique_vote_per_poll constraint guarantees. -/
def VotesUnique (votes : List VoteRow) : Prop :=
  List.Pairwise
    (fun a b => ¬(a.pollId = b.pollId ∧ a.voter_identifier = b.voter_identifier)) votes

/-! ### Concurrent admission attempts

A cast-vote request is two store-visible steps: the validation read
(voteValidate) and the insert (voteInsert, during which the storage layer
enforces the uniqueness constraint atomically).  N requests for the same
(poll, option, voter) interleave arbitrarily; a schedule lists which
attempt takes its next step. -/

/-- The shared parameters of the racing attempts. -/
structure RaceCfg where
  poll_id : Nat
  option_id : Nat
  voter : String
  now : Nat
deriving DecidableEq, Repr

/-- Progress of one attempt: validation pending, validation passed with the
insert pending, or finished with a result. -/
inductive Phase where
  | toValidate
  | toInsert
  | finished (r : CastResult)
deriving DecidableEq, Repr

def setPhase (ph : Nat → Phase) (i : Nat) (x : Phase) : Nat → Phase :=
  fun j => if j = i then x else ph j

structure RaceState where
  store : Store
  phase : Nat → Phase

/-- One step of attempt i.  A validation failure finishes the attempt with
the corresponding domain error; a passed validation moves it to the insert;
an insert that hits the uniqueness constraint finishes with an internal
failure because VoteSerializer.create catches nothing. -/
def raceStep (c : RaceCfg) (st : RaceState) (i : Nat) : RaceState :=
  match st.phase i with
  | .toValidate =>
    match voteValidate st.store c.poll_id c.option_id c.voter c.now with
    | .failed e => { st with phase := setPhase st.phase i (.finished (.err e)) }
    | .danglingPoll => { st with phase := setPhase st.phase i (.finished .internalErr) }
    | .proceed _ _ => { st with phase := setPhase st.phase i .toInsert }
  | .toInsert =>
    match voteInsert st.store c.poll_id c.option_id c.voter c.now with
    | .ok (v, s2) => { store := s2, phase := setPhase st.phase i (.finished (.ok v)) }
    | .error _ => { st with phase := setPhase st.phase i (.finished .internalErr) }
  | .finished _ => st

def initRace (s : Store) : RaceState :=
  { store := s, phase := fun _ => .toValidate }

def runRace (c : RaceCfg) (st : RaceState) (sched : List Nat) : RaceState :=
  sched.foldl (raceStep c) st

/-- Preconditions under which every attempt of the race would be admitted
against the initial store: the option exists and belongs to the target
poll, that poll exists, is active and unexpired, and the voter has not
voted yet. -/
structure RacePre (c : RaceCfg) (s : Store) : Prop where
  opt : ∃ o, findOption s c.option_id = some o ∧ o.pollId = c.poll_id
  poll : ∃ p, findPoll s c.poll_id = some p ∧ p.is_active = true ∧ is_expired p c.now = false
  fresh : user_has_voted s c.poll_id c.voter = false

/-! ### Specification-side check lists for the admission pipeline -/

/-- Evaluate a list of (check passed, error on failure) pairs: the error of
the first failing check, none when all pass. -/
def firstFailure : List (Bool × AdmissionError) → Option AdmissionError
  | [] => none
  | (passed, e) :: rest => if passed then firstFailure rest else some e

/-- The admission checks in the order the source runs them: option exists,
owning poll active, owning poll unexpired, owning poll equals the target,
no prior vote.  The list is empty only on a dangling foreign key. -/
def admissionChecks (s : Store) (poll_id option_id : Nat) (voter : String) (now : Nat) :
    List (Bool × AdmissionError) :=
  match findOption s option_id with
  | none => [(false, .OptionNotFound)]
  | some o =>
    match findPoll s o.pollId with
    | none => []
    | some p =>
      [(p.is_active, .PollInactive),
       (!is_expired p now, .PollExpired),
       (p.id == poll_id, .OptionPollMismatch),
       (!user_has_voted s p.id voter, .DuplicateVote)]

/-- Modelled from the words of claim C3: the same five checks but with the
poll-membership check second, before the active and expired checks. -/
def claimedChecksC3 (s : Store) (poll_id option_id : Nat) (voter : String) (now : Nat) :
    List (Bool × AdmissionError) :=
  match findOption s option_id with
  | none => [(false, .OptionNotFound)]
  | some o =>
    match findPoll s o.pollId with
    | none => []
    | some p =>
      [(p.id == poll_id, .OptionPollMismatch),
       (p.is_active, .PollInactive),
       (!is_expired p now, .PollExpired),
       (!user_has_voted s poll_id voter, .DuplicateVote)]

/-- The Vote rows of a given (poll, voter) pair. -/
def votesFor (votes : List VoteRow) (pid : Nat) (voter : String) : List VoteRow :=
  votes.filter (fun v => v.pollId == pid && v.voter_identifier == voter)

/-- The ordering the data model promises for options: ascending order,
ties broken by id. -/
def lexLe (a b : OptionRow) : Prop :=
  a.order < b.order ∨ (a.order = b.order ∧ a.id ≤ b.id)

/-! ### Concrete stores and inputs used by witnesses and counterexamples -/

/-- One active poll with one option and no votes. -/
def sA : Store :=
  { polls := [⟨1, "P", "", 0, none, true⟩], options := [⟨1, 1, "A", 0⟩],
    votes := [], nextPollId := 2, nextOptionId := 2, nextVoteId := 1 }

/-- Target poll 1 is active; poll 2 is inactive and owns option 10. -/
def sB : Store :=
  { polls := [⟨1, "P1", "", 0, none, true⟩, ⟨2, "P2", "", 0, none, false⟩],
    options := [⟨10, 2, "B", 0⟩],
    votes := [], nextPollId := 3, nextOptionId := 11, nextVoteId := 1 }

/-- Target poll 1 is active; poll 2 is active but expired at time 10 and
owns option 20. -/
def sC : Store :=
  { polls := [⟨1, "P1", "", 0, none, true⟩, ⟨2, "P2", "", 0, some 5, true⟩],
    options := [⟨20, 2, "B", 0⟩],
    votes := [], nextPollId := 3, nextOptionId := 21, nextVoteId := 1 }

/-- One poll with three options whose display orders tie: ids 1, 2, 3 with
orders 1, 0, 0. -/
def sD : Store :=
  { polls := [⟨1, "P", "", 0, none, true⟩],
    options := [⟨1, 1, "A", 1⟩, ⟨2, 1, "B", 0⟩, ⟨3, 1, "C", 0⟩],
    votes := [], nextPollId := 2, nextOptionId := 4, nextVoteId := 1 }

/-- The race configuration used by the concurrency witnesses: all attempts
aim at poll 1, option 1, voter v, at time 5. -/
def c0 : RaceCfg := ⟨1, 1, "v", 5⟩

/-- A valid create request with exactly two options. -/
def inpTwo : CreatePollInput :=
  { title := "T", description := "", expires_at := none, is_active := true,
    options := [⟨"A", 1⟩, ⟨"B", 2⟩] }

/-- A create request with a single option. -/
def inpOne : CreatePollInput :=
  { title := "T", description := "", expires_at := none, is_active := true,
    options := [⟨"A", 1⟩] }

/-! ## Theorems -/

/-- C4: for every poll, get_results returns total_votes equal to the sum of
the per-option vote counts, and for every option a percentage equal to
round(count / total_votes * 100, 2) when total_votes is positive and 0.0
for every option when total_votes is zero. -/
theorem C4_results_spec (s : Store) (pid : Nat) :
    (get_results s pid).total_votes
      = ((get_results s pid).options.map (fun r => r.vote_count)).sum
    ∧ ∀ r ∈ (get_results s pid).options,
        ((get_results s pid).total_votes = 0 → r.percentage = 0)
        ∧ (0 < (get_results s pid).total_votes →
            r.percentage
              = round2 ((r.vote_count : ℚ) / ((get_results s pid).total_votes : ℚ) * 100)) := by
  constructor
  · simp [get_results, List.map_map, Function.comp_def]
  · intro r hr
    simp only [get_results, List.mem_map] at hr
    obtain ⟨o, ho, rfl⟩ := hr
    constructor
    · intro h0
      simp only [get_results] at h0
      simp [get_percentage, h0]
    · intro hpos
      simp only [get_results] at hpos ⊢
      have hne : ((results_options s pid).map (fun o => vote_count s o)).sum ≠ 0 :=
        Nat.pos_iff_ne_zero.mp hpos
      simp [get_percentage, hne]

/-- C6: a cast_vote invocation that results in an AdmissionError leaves the
store exactly as it was before the attempt. -/
theorem C6_no_mutation_on_error (s : Store) (poll_id option_id : Nat)
    (voter : String) (now : Nat) (e : AdmissionError)
    (h : (cast_vote s poll_id option_id voter now).1 = .err e) :
    (cast_vote s poll_id option_id voter now).2 = s := by
  unfold cast_vote at h ⊢
  cases hv : voteValidate s poll_id option_id voter now with
  | failed e2 => simp [hv]
  | danglingPoll => simp [hv]
  | proceed poll option =>
    simp only [hv] at h ⊢
    cases hins : voteInsert s poll.id option.id voter now with
    | ok pair => simp [hins] at h
    | error u => simp [hins]

/-- C6 witness: at a concrete failing attempt the store is unchanged. -/
theorem C6_no_mutation_on_error_witness : (cast_vote sB 1 10 "v" 0).2 = sB :=
  C6_no_mutation_on_error sB 1 10 "v" 0 .PollInactive (by decide)

/-- C9: the poll edit operation changes no Option row, no Vote row, and no
poll identity or creation timestamp. -/
theorem C9_edit_frame (s : Store) (pid : Nat) (patch : PollPatch) :
    (update_poll s pid patch).options = s.options
    ∧ (update_poll s pid patch).votes = s.votes
    ∧ (update_poll s pid patch).polls.map (fun p => p.id) = s.polls.map (fun p => p.id)
    ∧ (update_poll s pid patch).polls.map (fun p => p.created_at)
        = s.polls.map (fun p => p.created_at) := by
  refine ⟨rfl, rfl, ?_, ?_⟩ <;>
  · simp only [update_poll, List.map_map]
    apply List.map_congr_left
    intro p _
    simp only [applyPatch, beq_iff_eq, Function.comp_apply]
    split <;> rfl

/-- C10: the active and expired checks run against the submitted option
owning poll, before the poll-membership check: an option of a different,
inactive poll yields PollInactive, and of a different, active but expired
poll yields PollExpired, never OptionPollMismatch first. -/
theorem C10_status_checks_use_owner (s : Store) (poll_id option_id : Nat)
    (voter : String) (now : Nat) (o : OptionRow) (p : PollRow)
    (ho : findOption s option_id = some o)
    (hp : findPoll s o.pollId = some p) :
    (p.is_active = false →
       (cast_vote s poll_id option_id voter now).1 = .err .PollInactive)
    ∧ (p.is_active = true → is_expired p now = true →
       (cast_vote s poll_id option_id voter now).1 = .err .PollExpired) := by
  constructor
  · intro hact
    simp [cast_vote, voteValidate, ho, hp, hact]
  · intro hact hexp
    simp [cast_vote, voteValidate, ho, hp, hact, hexp]

/-- C10 witness: concrete mismatched attempts fail with the owner status
errors. -/
theorem C10_status_checks_use_owner_witness :
    (cast_vote sB 1 10 "v" 0).1 = .err .PollInactive
    ∧ (cast_vote sC 1 20 "v" 10).1 = .err .PollExpired := by
  constructor
  · exact (C10_status_checks_use_owner sB 1 10 "v" 0 ⟨10, 2, "B", 0⟩
      ⟨2, "P2", "", 0, none, false⟩ (by decide) (by decide)).1 (by decide)
  · exact (C10_status_checks_use_owner sC 1 20 "v" 10 ⟨20, 2, "B", 0⟩
      ⟨2, "P2", "", 0, some 5, true⟩ (by decide) (by decide)).2 (by decide) (by decide)

theorem client_ip_session_update (r : Request) (key : Option String) :
    client_ip { r with session_key := key } = client_ip r := rfl

theorem gvi_fallback (r : Request) (k : String)
    (hauth : r.user_is_authenticated = false) (hip : client_ip r = none) :
    get_voter_identifier r k = sessionFallback r k := by
  unfold get_voter_identifier
  rw [hauth, hip]
  rfl

theorem sessionFallback_spec (r : Request) (kk : String) (hkk : kk ≠ "") :
    ∃ key, key ≠ ""
      ∧ sessionFallback r kk = ("session_" ++ key, { r with session_key := some key }) := by
  cases hs : r.session_key with
  | none => exact ⟨kk, hkk, by simp [sessionFallback, hs]⟩
  | some k0 =>
    by_cases h0 : k0 = ""
    · exact ⟨kk, hkk, by simp [sessionFallback, hs, h0]⟩
    · refine ⟨k0, h0, ?_⟩
      simp only [sessionFallback, hs, h0, if_neg]
      cases r
      simp_all

/-- C7: the identity resolver always succeeds and follows the fixed
priority: authenticated principal, then determinable client IP (forwarded
header first hop preferred, else the direct address, an empty value
counting as undeterminable), then a server session token created when
absent; and the result is stable, so a second call on the resulting request
state returns the same identifier. -/
theorem C7_resolver (r : Request) (k : String) (hk : k ≠ "") :
    (r.user_is_authenticated = true →
       get_voter_identifier r k = ("user_" ++ toString r.user_id, r))
    ∧ (∀ a, r.user_is_authenticated = false → client_ip r = some a →
       get_voter_identifier r k = ("ip_" ++ a, r))
    ∧ (r.user_is_authenticated = false → client_ip r = none →
       ∃ key, key ≠ "" ∧ get_voter_identifier r k
         = ("session_" ++ key, { r with session_key := some key }))
    ∧ (∀ k2, k2 ≠ "" →
       (get_voter_identifier (get_voter_identifier r k).2 k2).1
         = (get_voter_identifier r k).1) := by
  refine ⟨?_, ?_, ?_, ?_⟩
  · intro h
    simp [get_voter_identifier, h]
  · intro a hauth hip
    simp [get_voter_identifier, hauth, hip]
  · intro hauth hip
    rw [gvi_fallback r k hauth hip]
    exact sessionFallback_spec r k hk
  · intro k2 hk2
    by_cases hauth : r.user_is_authenticated
    · simp [get_voter_identifier, hauth]
    · have hauth2 : r.user_is_authenticated = false := by simpa using hauth
      cases hip : client_ip r with
      | some a => simp [get_voter_identifier, hauth2, hip]
      | none =>
        obtain ⟨key, hkey, heq⟩ := sessionFallback_spec r k hk
        have h1 : get_voter_identifier r k
            = ("session_" ++ key, { r with session_key := some key }) :=
          (gvi_fallback r k hauth2 hip).trans heq
        rw [h1]
        have hauth3 : ({ r with session_key := some key } : Request).user_is_authenticated
            = false := hauth2
        have hip3 : client_ip { r with session_key := some key } = none := by
          rw [client_ip_session_update, hip]
        rw [gvi_fallback _ k2 hauth3 hip3]
        simp [sessionFallback, hkey]

/-- C7 witness: concrete resolutions for each priority level, and stability
of the session fallback across two calls. -/
theorem C7_resolver_witness :
    get_voter_identifier ⟨true, 7, none, none, none⟩ "K"
      = ("user_" ++ toString (7 : Nat), ⟨true, 7, none, none, none⟩)
    ∧ get_voter_identifier ⟨false, 0, some "1.2.3.4, 9.9.9.9", some "5.6.7.8", none⟩ "K"
      = ("ip_" ++ "1.2.3.4", ⟨false, 0, some "1.2.3.4, 9.9.9.9", some "5.6.7.8", none⟩)
    ∧ (get_voter_identifier (get_voter_identifier ⟨false, 0, none, none, none⟩ "K").2 "K2").1
      = (get_voter_identifier ⟨false, 0, none, none, none⟩ "K").1 := by
  refine ⟨?_, ?_, ?_⟩
  · exact (C7_resolver ⟨true, 7, none, none, none⟩ "K" (by decide)).1 rfl
  · exact (C7_resolver ⟨false, 0, some "1.2.3.4, 9.9.9.9", some "5.6.7.8", none⟩ "K"
      (by decide)).2.1 "1.2.3.4" rfl (by rfl)
  · exact (C7_resolver ⟨false, 0, none, none, none⟩ "K" (by decide)).2.2.2 "K2" (by decide)

theorem buildOptionRows_length :
    ∀ (pid nid : Nat) (l : List OptionInput), (buildOptionRows pid nid l).length = l.length := by
  intro pid nid l
  induction l generalizing nid with
  | nil => rfl
  | cons o os ih => simp [buildOptionRows, ih]

theorem validateOptionList_length :
    ∀ (l res : List OptionInput), validateOptionList l = .ok res → res.length = l.length := by
  intro l
  induction l with
  | nil =>
    intro res h
    simp only [validateOptionList] at h
    cases h
    rfl
  | cons o os ih =>
    intro res h
    simp only [validateOptionList] at h
    cases h1 : validate_option_text o with
    | error e => rw [h1] at h; exact Except.noConfusion h
    | ok o2 =>
      rw [h1] at h
      cases h2 : validateOptionList os with
      | error e => rw [h2] at h; exact Except.noConfusion h
      | ok os2 =>
        rw [h2] at h
        cases h
        simp [ih os2 h2]

theorem validate_options_ok (l res : List OptionInput) (h : validate_options l = .ok res) :
    res.length = l.length ∧ 2 ≤ l.length := by
  unfold validate_options at h
  split at h
  · exact Except.noConfusion h
  · next hlt => exact ⟨validateOptionList_length l res h, Nat.not_lt.mp hlt⟩

theorem validatePollInput_ok (inp v : CreatePollInput) (h : validatePollInput inp = .ok v) :
    v.options.length = inp.options.length ∧ 2 ≤ inp.options.length := by
  unfold validatePollInput at h
  cases h1 : validate_title inp.title with
  | error e => rw [h1] at h; exact Except.noConfusion h
  | ok t =>
    rw [h1] at h
    cases h2 : validate_description inp.description with
    | error e => rw [h2] at h; exact Except.noConfusion h
    | ok d =>
      rw [h2] at h
      cases h3 : validate_options inp.options with
      | error e => rw [h3] at h; exact Except.noConfusion h
      | ok os =>
        rw [h3] at h
        cases h
        exact validate_options_ok inp.options os h3

/-- C5: poll creation validates before it writes.  With fewer than 2
options it fails and leaves every table unchanged; when validation passes
(as it does for a well-formed request with exactly 2 options) one Poll row
and exactly one Option row per submitted option are persisted, and the Vote
table is untouched. -/
theorem C5_create_poll (s : Store) (inp : CreatePollInput) (now : Nat) :
    (inp.options.length < 2 →
       (∃ e, (create_poll s inp now).1 = .error e) ∧ (create_poll s inp now).2 = s)
    ∧ ∀ v, validatePollInput inp = .ok v →
        2 ≤ inp.options.length
        ∧ ∃ p, (create_poll s inp now).1 = .ok p
            ∧ (create_poll s inp now).2.polls = s.polls ++ [p]
            ∧ (create_poll s inp now).2.options
                = s.options ++ buildOptionRows p.id s.nextOptionId v.options
            ∧ (buildOptionRows p.id s.nextOptionId v.options).length = inp.options.length
            ∧ (create_poll s inp now).2.votes = s.votes := by
  constructor
  · intro hlt
    cases h1 : validate_title inp.title with
    | error e => simp [create_poll, validatePollInput, h1]
    | ok t =>
      cases h2 : validate_description inp.description with
      | error e => simp [create_poll, validatePollInput, h1, h2]
      | ok d => simp [create_poll, validatePollInput, h1, h2, validate_options, hlt]
  · intro v hv
    obtain ⟨hlen, h2le⟩ := validatePollInput_ok inp v hv
    refine ⟨h2le, ?_⟩
    refine ⟨{ id := s.nextPollId, title := v.title, description := v.description,
              created_at := now, expires_at := v.expires_at, is_active := v.is_active },
            ?_, ?_, ?_, ?_, ?_⟩ <;>
      simp [create_poll, hv, buildOptionRows_length, hlen]

/-- C5 witness: a one-option request fails leaving the empty store
unchanged; a two-option request succeeds and persists the poll. -/
theorem C5_create_poll_witness :
    ((∃ e, (create_poll emptyStore inpOne 0).1 = .error e)
      ∧ (create_poll emptyStore inpOne 0).2 = emptyStore)
    ∧ ∃ p, (create_poll emptyStore inpTwo 0).1 = .ok p
        ∧ (create_poll emptyStore inpTwo 0).2.polls = emptyStore.polls ++ [p] := by
  constructor
  · exact (C5_create_poll emptyStore inpOne 0).1 (by decide)
  · obtain ⟨-, p, h1, h2, -⟩ := (C5_create_poll emptyStore inpTwo 0).2 inpTwo (by rfl)
    exact ⟨p, h1, h2⟩

/-- C3 counterexample: with target poll 1 active and option 10 owned by the
inactive poll 2, the claimed order produces OptionPollMismatch while the
code produces PollInactive, so the claimed check order is not the order the
code runs. -/
theorem C3_counterexample :
    firstFailure (claimedChecksC3 sB 1 10 "v" 0) = some .OptionPollMismatch
    ∧ (cast_vote sB 1 10 "v" 0).1 = .err .PollInactive
    ∧ AdmissionError.PollInactive ≠ .OptionPollMismatch := by decide

/-- C3 amended: the validation checks run in the order option exists, owning
poll active, owning poll unexpired, owning poll equals the target poll, no
duplicate vote, each short-circuiting, and the error of every failing
invocation is the first failing check in that order; when every check
passes the vote is admitted. -/
theorem C3_amended (s : Store) (poll_id option_id : Nat) (voter : String) (now : Nat)
    (hfk : ∀ o ∈ s.options, (findPoll s o.pollId).isSome) :
    (∀ e, (cast_vote s poll_id option_id voter now).1 = .err e
       ↔ firstFailure (admissionChecks s poll_id option_id voter now) = some e)
    ∧ (firstFailure (admissionChecks s poll_id option_id voter now) = none →
        ∃ vrow, (cast_vote s poll_id option_id voter now).1 = .ok vrow) := by
  cases ho : findOption s option_id with
  | none =>
    constructor
    · intro e
      simp [cast_vote, voteValidate, admissionChecks, firstFailure, ho]
    · intro hnone
      simp [admissionChecks, firstFailure, ho] at hnone
  | some o =>
    have homem : o ∈ s.options := by
      have := List.find?_some ho
      exact List.mem_of_find?_eq_some ho
    obtain ⟨p, hp⟩ := Option.isSome_iff_exists.mp (hfk o homem)
    cases hact : p.is_active with
    | false =>
      constructor
      · intro e
        simp [cast_vote, voteValidate, admissionChecks, firstFailure, ho, hp, hact]
      · intro hnone
        simp [admissionChecks, firstFailure, ho, hp, hact] at hnone
    | true =>
      cases hexp : is_expired p now with
      | true =>
        constructor
        · intro e
          simp [cast_vote, voteValidate, admissionChecks, firstFailure, ho, hp, hact, hexp]
        · intro hnone
          simp [admissionChecks, firstFailure, ho, hp, hact, hexp] at hnone
      | false =>
        by_cases hmm : p.id = poll_id
        · subst hmm
          cases hdup : user_has_voted s p.id voter with
          | true =>
            constructor
            · intro e
              simp [cast_vote, voteValidate, admissionChecks, firstFailure,
                ho, hp, hact, hexp, hdup]
            · intro hnone
              simp [admissionChecks, firstFailure, ho, hp, hact, hexp, hdup] at hnone
          | false =>
            constructor
            · intro e
              simp [cast_vote, voteValidate, admissionChecks, firstFailure, voteInsert,
                ho, hp, hact, hexp, hdup]
            · intro _
              refine ⟨{ id := s.nextVoteId, pollId := p.id, optionId := o.id,
                        voter_identifier := voter, voted_at := now }, ?_⟩
              simp [cast_vote, voteValidate, voteInsert, ho, hp, hact, hexp, hdup]
        · constructor
          · intro e
            simp [cast_vote, voteValidate, admissionChecks, firstFailure,
              ho, hp, hact, hexp, hmm]
          · intro hnone
            simp [admissionChecks, firstFailure, ho, hp, hact, hexp, hmm] at hnone

/-- C3 amended witness: a fully valid attempt is admitted, and a concrete
failing attempt has exactly the first failing check in source order as its
error. -/
theorem C3_amended_witness :
    (∃ vrow, (cast_vote sA 1 1 "v" 5).1 = .ok vrow)
    ∧ ((cast_vote sB 1 10 "v" 0).1 = .err .PollInactive
        ↔ firstFailure (admissionChecks sB 1 10 "v" 0) = some .PollInactive) := by
  constructor
  · exact (C3_amended sA 1 1 "v" 5 (by decide)).2 (by rfl)
  · exact (C3_amended sB 1 10 "v" 0 (by decide)).1 .PollInactive

theorem mem_insertBy {α : Type} (lt : α → α → Bool) (x z : α) :
    ∀ l : List α, z ∈ insertBy lt x l ↔ z = x ∨ z ∈ l := by
  intro l
  induction l with
  | nil => simp [insertBy]
  | cons y ys ih =>
    simp only [insertBy]
    split
    · simp only [List.mem_cons, ih]
      tauto
    · exact List.mem_cons

theorem insertBy_perm {α : Type} (lt : α → α → Bool) (x : α) :
    ∀ l : List α, List.Perm (insertBy lt x l) (x :: l) := by
  intro l
  induction l with
  | nil => exact List.Perm.refl _
  | cons y ys ih =>
    simp only [insertBy]
    split
    · exact (List.Perm.cons y ih).trans (List.Perm.swap x y ys)
    · exact List.Perm.refl _

theorem sortBy_perm {α : Type} (lt : α → α → Bool) (l : List α) :
    List.Perm (sortBy lt l) l := by
  induction l with
  | nil => exact List.Perm.refl _
  | cons x xs ih => exact (insertBy_perm lt x (sortBy lt xs)).trans (List.Perm.cons x ih)

theorem insertBy_order_eq_lex (x : OptionRow) :
    ∀ l : List OptionRow, (∀ y ∈ l, x.id < y.id) →
      insertBy orderLt x l = insertBy lexLt x l := by
  intro l
  induction l with
  | nil => intro _; rfl
  | cons y ys ih =>
    intro h
    have hxy : x.id < y.id := h y (List.mem_cons_self y ys)
    have hlt : lexLt y x = orderLt y x := by
      unfold lexLt orderLt
      have hid : (decide (y.id < x.id)) = false := decide_eq_false (by omega)
      rw [hid, Bool.and_false, Bool.or_false]
    simp only [insertBy, hlt]
    split
    · rw [ih (fun z hz => h z (List.mem_cons_of_mem y hz))]
    · rfl

theorem sortBy_order_eq_lex :
    ∀ l : List OptionRow, List.Pairwise (fun a b => a.id < b.id) l →
      sortBy orderLt l = sortBy lexLt l := by
  intro l
  induction l with
  | nil => intro _; rfl
  | cons x xs ih =>
    intro h
    obtain ⟨hx, hxs⟩ := List.pairwise_cons.mp h
    show insertBy orderLt x (sortBy orderLt xs) = insertBy lexLt x (sortBy lexLt xs)
    rw [ih hxs]
    exact insertBy_order_eq_lex x _
      (fun y hy => hx y ((sortBy_perm lexLt xs).mem_iff.mp hy))

theorem lexLe_of_lexLt (a b : OptionRow) (h : lexLt a b = true) : lexLe a b := by
  simp only [lexLt, Bool.or_eq_true, Bool.and_eq_true, decide_eq_true_eq] at h
  unfold lexLe
  rcases h with h | ⟨h1, h2⟩
  · exact Or.inl h
  · exact Or.inr ⟨h1, Nat.le_of_lt h2⟩

theorem lexLe_of_not_lexLt (a b : OptionRow) (h : lexLt b a = false) : lexLe a b := by
  simp only [lexLt, Bool.or_eq_false_iff, Bool.and_eq_false_iff,
    decide_eq_false_iff_not] at h
  unfold lexLe
  obtain ⟨h1, h2⟩ := h
  rcases lt_or_eq_of_le (le_of_not_lt h1) with hlt | heq
  · exact Or.inl hlt
  · refine Or.inr ⟨heq, ?_⟩
    rcases h2 with h2 | h2
    · exact absurd heq.symm h2
    · omega

theorem lexLe_trans {a b c : OptionRow} (h1 : lexLe a b) (h2 : lexLe b c) : lexLe a c := by
  unfold lexLe at h1 h2 ⊢
  rcases h1 with h1 | ⟨e1, i1⟩ <;> rcases h2 with h2 | ⟨e2, i2⟩
  · exact Or.inl (lt_trans h1 h2)
  · exact Or.inl (e2 ▸ h1)
  · exact Or.inl (e1 ▸ h2)
  · exact Or.inr ⟨e1.trans e2, le_trans i1 i2⟩

theorem pairwise_insertBy (x : OptionRow) :
    ∀ l : List OptionRow, List.Pairwise lexLe l →
      List.Pairwise lexLe (insertBy lexLt x l) := by
  intro l
  induction l with
  | nil => intro _; simp [insertBy]
  | cons y ys ih =>
    intro h
    obtain ⟨hy, hys⟩ := List.pairwise_cons.mp h
    simp only [insertBy]
    split
    · next hlt =>
      refine List.pairwise_cons.mpr ⟨?_, ih hys⟩
      intro z hz
      rcases (mem_insertBy lexLt x z ys).mp hz with rfl | hzys
      · exact lexLe_of_lexLt y z hlt
      · exact hy z hzys
    · next hnlt =>
      have hf : lexLt y x = false := Bool.not_eq_true _ ▸ eq_false_of_ne_true hnlt
      refine List.pairwise_cons.mpr ⟨?_, h⟩
      intro z hz
      rcases List.mem_cons.mp hz with rfl | hzys
      · exact lexLe_of_not_lexLt x z hf
      · exact lexLe_trans (lexLe_of_not_lexLt x y hf) (hy z hzys)

theorem sortBy_lex_sorted : ∀ l : List OptionRow, List.Pairwise lexLe (sortBy lexLt l) := by
  intro l
  induction l with
  | nil => simp [sortBy]
  | cons x xs ih => exact pairwise_insertBy x _ ih

/-- C8: when the Option rows of the store carry ids increasing in insertion
order (as autoincrement allocation produces), the options a poll returns
from the results query (stable sort on order alone) coincide with the
detail view ordering (order, then id), are sorted ascending by order with
ties broken by id, and are a permutation of the poll's options. -/
theorem C8_option_ordering (s : Store) (pid : Nat)
    (hids : List.Pairwise (fun a b => a.id < b.id) s.options) :
    results_options s pid = detail_options s pid
    ∧ List.Pairwise lexLe (results_options s pid)
    ∧ List.Perm (results_options s pid) (pollOptions s pid) := by
  have hfil : List.Pairwise (fun a b => a.id < b.id) (pollOptions s pid) :=
    List.Pairwise.sublist (List.filter_sublist _) hids
  have heq : results_options s pid = detail_options s pid :=
    sortBy_order_eq_lex _ hfil
  refine ⟨heq, ?_, sortBy_perm _ _⟩
  rw [heq]
  exact sortBy_lex_sorted _

/-- C8 witness: a store with tied display orders, where the tie between
option ids 2 and 3 resolves by id. -/
theorem C8_option_ordering_witness :
    results_options sD 1 = detail_options sD 1
    ∧ List.Pairwise lexLe (results_options sD 1)
    ∧ List.Perm (results_options sD 1) (pollOptions sD 1) :=
  C8_option_ordering sD 1 (by decide)

/-! ### The duplicate-vote race -/

theorem voteValidate_race_pass (c : RaceCfg) (s0 : Store) (hpre : RacePre c s0)
    (s : Store) (hpolls : s.polls = s0.polls) (hopts : s.options = s0.options)
    (hdup : user_has_voted s c.poll_id c.voter = false) :
    ∃ p o, voteValidate s c.poll_id c.option_id c.voter c.now = .proceed p o := by
  obtain ⟨o, ho, hop⟩ := hpre.opt
  obtain ⟨p, hp, hact, hexp⟩ := hpre.poll
  have ho2 : findOption s c.option_id = some o := by
    unfold findOption
    rw [hopts]
    exact ho
  have hp2 : findPoll s o.pollId = some p := by
    unfold findPoll
    rw [hpolls, hop]
    exact hp
  have hpid : p.id = c.poll_id := by
    have := List.find?_some hp
    simpa using this
  refine ⟨p, o, ?_⟩
  simp [voteValidate, ho2, hp2, hact, hexp, hpid, hdup]

theorem voteValidate_race_dup (c : RaceCfg) (s0 : Store) (hpre : RacePre c s0)
    (s : Store) (hpolls : s.polls = s0.polls) (hopts : s.options = s0.options)
    (hdup : user_has_voted s c.poll_id c.voter = true) :
    voteValidate s c.poll_id c.option_id c.voter c.now = .failed .DuplicateVote := by
  obtain ⟨o, ho, hop⟩ := hpre.opt
  obtain ⟨p, hp, hact, hexp⟩ := hpre.poll
  have ho2 : findOption s c.option_id = some o := by
    unfold findOption
    rw [hopts]
    exact ho
  have hp2 : findPoll s o.pollId = some p := by
    unfold findPoll
    rw [hpolls, hop]
    exact hp
  have hpid : p.id = c.poll_id := by
    have := List.find?_some hp
    simpa using this
  simp [voteValidate, ho2, hp2, hact, hexp, hpid, hdup]

/-- A racing attempt that is not the winner is pending or has one of the
two loser outcomes: the pre-check error or the uncaught constraint
violation. -/
def LoserPhase (ph : Phase) : Prop :=
  ph = .toValidate ∨ ph = .toInsert
    ∨ ph = .finished (.err .DuplicateVote) ∨ ph = .finished .internalErr

/-- Invariant of the race: polls and options never change; either no vote
of the racing pair has been inserted yet and nobody finished, or exactly
one winner row exists, one attempt finished ok with it, and every other
attempt is pending or a loser. -/
structure RaceInv (c : RaceCfg) (s0 : Store) (n : Nat) (st : RaceState) : Prop where
  polls_eq : st.store.polls = s0.polls
  options_eq : st.store.options = s0.options
  branch :
    (st.store.votes = s0.votes
      ∧ ∀ i, i < n → st.phase i = .toValidate ∨ st.phase i = .toInsert)
    ∨ ∃ v, st.store.votes = s0.votes ++ [v]
        ∧ v.pollId = c.poll_id ∧ v.voter_identifier = c.voter
        ∧ ∃ j, j < n ∧ st.phase j = .finished (.ok v)
          ∧ ∀ i, i < n → i ≠ j → LoserPhase (st.phase i)

theorem raceStep_inv (c : RaceCfg) (s0 : Store) (n : Nat) (hpre : RacePre c s0)
    (st : RaceState) (i : Nat) (hi : i < n) (h : RaceInv c s0 n st) :
    RaceInv c s0 n (raceStep c st i) := by
  obtain ⟨hpolls, hopts, hbr⟩ := h
  cases hph : st.phase i with
  | finished r =>
    simp only [raceStep, hph]
    exact ⟨hpolls, hopts, hbr⟩
  | toValidate =>
    rcases hbr with ⟨hvotes, hall⟩ | ⟨v, hvotes, hvp, hvv, j, hj, hjok, hlosers⟩
    · have hdup : user_has_voted st.store c.poll_id c.voter = false := by
        unfold user_has_voted
        rw [hvotes]
        exact hpre.fresh
      obtain ⟨p, o, hval⟩ := voteValidate_race_pass c s0 hpre st.store hpolls hopts hdup
      simp only [raceStep, hph, hval]
      refine ⟨hpolls, hopts, Or.inl ⟨hvotes, ?_⟩⟩
      intro i2 hi2
      simp only [setPhase]
      by_cases hii : i2 = i
      · simp [hii]
      · rw [if_neg hii]
        exact hall i2 hi2
    · have hij : i ≠ j := by
        intro he
        rw [he, hjok] at hph
        exact Phase.noConfusion hph
      have hdup : user_has_voted st.store c.poll_id c.voter = true := by
        unfold user_has_voted
        rw [hvotes, List.any_append]
        have hone : (List.any [v]
            fun w => w.pollId == c.poll_id && w.voter_identifier == c.voter) = true := by
          simp [hvp, hvv]
        rw [hone, Bool.or_true]
      have hval := voteValidate_race_dup c s0 hpre st.store hpolls hopts hdup
      simp only [raceStep, hph, hval]
      refine ⟨hpolls, hopts, Or.inr ⟨v, hvotes, hvp, hvv, j, hj, ?_, ?_⟩⟩
      · simp only [setPhase]
        rw [if_neg (Ne.symm hij)]
        exact hjok
      · intro i2 hi2 hi2j
        simp only [setPhase]
        by_cases hii : i2 = i
        · rw [if_pos hii]
          exact Or.inr (Or.inr (Or.inl rfl))
        · rw [if_neg hii]
          exact hlosers i2 hi2 hi2j
  | toInsert =>
    rcases hbr with ⟨hvotes, hall⟩ | ⟨v, hvotes, hvp, hvv, j, hj, hjok, hlosers⟩
    · have hdup : user_has_voted st.store c.poll_id c.voter = false := by
        unfold user_has_voted
        rw [hvotes]
        exact hpre.fresh
      simp only [raceStep, hph, voteInsert, hdup, Bool.false_eq_true, if_false]
      refine ⟨hpolls, hopts, Or.inr
        ⟨⟨st.store.nextVoteId, c.poll_id, c.option_id, c.voter, c.now⟩,
          by rw [hvotes], rfl, rfl, i, hi, ?_, ?_⟩⟩
      · simp [setPhase]
      · intro i2 hi2 hi2i
        simp only [setPhase]
        rw [if_neg hi2i]
        rcases hall i2 hi2 with h1 | h1
        · exact Or.inl h1
        · exact Or.inr (Or.inl h1)
    · have hij : i ≠ j := by
        intro he
        rw [he, hjok] at hph
        exact Phase.noConfusion hph
      have hdup : user_has_voted st.store c.poll_id c.voter = true := by
        unfold user_has_voted
        rw [hvotes, List.any_append]
        have hone : (List.any [v]
            fun w => w.pollId == c.poll_id && w.voter_identifier == c.voter) = true := by
          simp [hvp, hvv]
        rw [hone, Bool.or_true]
      simp only [raceStep, hph, voteInsert, hdup, if_true]
      refine ⟨hpolls, hopts, Or.inr ⟨v, hvotes, hvp, hvv, j, hj, ?_, ?_⟩⟩
      · simp only [setPhase]
        rw [if_neg (Ne.symm hij)]
        exact hjok
      · intro i2 hi2 hi2j
        simp only [setPhase]
        by_cases hii : i2 = i
        · rw [if_pos hii]
          exact Or.inr (Or.inr (Or.inr rfl))
        · rw [if_neg hii]
          exact hlosers i2 hi2 hi2j

theorem runRace_inv (c : RaceCfg) (s0 : Store) (n : Nat) (hpre : RacePre c s0) :
    ∀ (sched : List Nat) (st : RaceState), (∀ i ∈ sched, i < n) →
      RaceInv c s0 n st → RaceInv c s0 n (runRace c st sched) := by
  intro sched
  induction sched with
  | nil => intro st _ h; exact h
  | cons i rest ih =>
    intro st hs h
    have hi : i < n := hs i (List.mem_cons_self i rest)
    exact ih (raceStep c st i) (fun i2 hi2 => hs i2 (List.mem_cons_of_mem i hi2))
      (raceStep_inv c s0 n hpre st i hi h)

theorem create_poll_votes_eq (s : Store) (inp : CreatePollInput) (now : Nat) :
    ((create_poll s inp now).2).votes = s.votes := by
  cases hv : validatePollInput inp with
  | error e => simp [create_poll, hv]
  | ok v => simp [create_poll, hv]

theorem cast_vote_votesUnique (s : Store) (pid oid : Nat) (voter : String) (now : Nat)
    (h : VotesUnique s.votes) :
    VotesUnique ((cast_vote s pid oid voter now).2).votes := by
  cases hval : voteValidate s pid oid voter now with
  | failed e =>
    simp only [cast_vote, hval]
    exact h
  | danglingPoll =>
    simp only [cast_vote, hval]
    exact h
  | proceed poll option =>
    by_cases hdup : user_has_voted s poll.id voter = true
    · simp only [cast_vote, hval, voteInsert, hdup, if_true]
      exact h
    · have hdup2 : user_has_voted s poll.id voter = false := by simpa using hdup
      simp only [cast_vote, hval, voteInsert, hdup2, Bool.false_eq_true, if_false]
      unfold VotesUnique at h ⊢
      rw [List.pairwise_append]
      refine ⟨h, List.pairwise_singleton _ _, ?_⟩
      intro a ha b hb
      simp only [List.mem_singleton] at hb
      subst hb
      rintro ⟨hpid2, hvid2⟩
      apply hdup
      unfold user_has_voted
      exact List.any_eq_true.mpr ⟨a, ha, by simp [hpid2, hvid2]⟩

theorem applyOp_votesUnique (s : Store) (op : AdminOp) (h : VotesUnique s.votes) :
    VotesUnique ((applyOp s op).votes) := by
  cases op with
  | create inp now =>
    show VotesUnique ((create_poll s inp now).2).votes
    rw [create_poll_votes_eq]
    exact h
  | vote pid oid voter now => exact cast_vote_votesUnique s pid oid voter now h
  | edit pid patch => exact h
  | remove pid => exact List.Pairwise.sublist (List.filter_sublist _) h

theorem foldl_votesUnique :
    ∀ (ops : List AdminOp) (t : Store),
      VotesUnique t.votes → VotesUnique ((ops.foldl applyOp t).votes) := by
  intro ops
  induction ops with
  | nil => intro t h; exact h
  | cons op rest ih =>
    intro t h
    exact ih (applyOp t op) (applyOp_votesUnique t op h)

theorem votesFor_nil (votes : List VoteRow) (pid : Nat) (voter : String)
    (h : votes.any (fun v => v.pollId == pid && v.voter_identifier == voter) = false) :
    votesFor votes pid voter = [] := by
  unfold votesFor
  rw [List.filter_eq_nil_iff]
  intro a ha
  intro hpred
  exact Bool.false_ne_true
    (h.symm.trans (List.any_eq_true.mpr ⟨a, ha, hpred⟩))

theorem votesFor_append (l1 l2 : List VoteRow) (pid : Nat) (voter : String) :
    votesFor (l1 ++ l2) pid voter = votesFor l1 pid voter ++ votesFor l2 pid voter :=
  List.filter_append _ _

/-- C1 amended: in every reachable store at most one Vote row exists per
(poll, voter_identifier) pair, and when N concurrent admission attempts for
the same (poll, option, identity) all finish under any interleaving,
exactly one succeeds, exactly one row of that pair exists afterwards, and
each of the other N-1 fails, with DuplicateVote when the pre-check saw the
winner row, else with the uncaught uniqueness-violation internal failure. -/
theorem C1_amended :
    (∀ s, Reachable s → VotesUnique s.votes)
    ∧ ∀ (c : RaceCfg) (s0 : Store) (n : Nat) (sched : List Nat),
        RacePre c s0 → 0 < n → (∀ i ∈ sched, i < n) →
        (∀ i, i < n → ∃ r, (runRace c (initRace s0) sched).phase i = .finished r) →
        (∃ j, j < n
          ∧ (∃ v, (runRace c (initRace s0) sched).phase j = .finished (.ok v))
          ∧ ∀ i, i < n → i ≠ j →
              (runRace c (initRace s0) sched).phase i = .finished (.err .DuplicateVote)
              ∨ (runRace c (initRace s0) sched).phase i = .finished .internalErr)
        ∧ (votesFor (runRace c (initRace s0) sched).store.votes c.poll_id c.voter).length
            = 1 := by
  constructor
  · rintro s ⟨ops, rfl⟩
    exact foldl_votesUnique ops emptyStore List.Pairwise.nil
  · intro c s0 n sched hpre hn hsched hfin
    have hinv0 : RaceInv c s0 n (initRace s0) :=
      ⟨rfl, rfl, Or.inl ⟨rfl, fun i _ => Or.inl rfl⟩⟩
    have hinv := runRace_inv c s0 n hpre sched (initRace s0) hsched hinv0
    obtain ⟨hpolls, hopts, hbr⟩ := hinv
    rcases hbr with ⟨hvotes, hall⟩ | ⟨v, hvotes, hvp, hvv, j, hj, hjok, hlosers⟩
    · obtain ⟨r, hr⟩ := hfin 0 hn
      rcases hall 0 hn with h1 | h1 <;> rw [h1] at hr <;> exact Phase.noConfusion hr
    · constructor
      · refine ⟨j, hj, ⟨v, hjok⟩, ?_⟩
        intro i hi hij
        rcases hlosers i hi hij with h1 | h1 | h1 | h1
        · obtain ⟨r, hr⟩ := hfin i hi
          rw [h1] at hr
          exact Phase.noConfusion hr
        · obtain ⟨r, hr⟩ := hfin i hi
          rw [h1] at hr
          exact Phase.noConfusion hr
        · exact Or.inl h1
        · exact Or.inr h1
      · rw [hvotes, votesFor_append, votesFor_nil s0.votes c.poll_id c.voter hpre.fresh]
        simp [votesFor, hvp, hvv]

/-- C1 amended witness: a reachable store has unique votes, and a concrete
two-attempt race under the schedule validate, insert, validate finishes
with one winner, one loser, and one stored row. -/
theorem C1_amended_witness :
    VotesUnique (([AdminOp.create inpTwo 0].foldl applyOp emptyStore).votes)
    ∧ ((∃ j, j < 2
          ∧ (∃ v, (runRace c0 (initRace sA) [0, 0, 1]).phase j = .finished (.ok v))
          ∧ ∀ i, i < 2 → i ≠ j →
              (runRace c0 (initRace sA) [0, 0, 1]).phase i = .finished (.err .DuplicateVote)
              ∨ (runRace c0 (initRace sA) [0, 0, 1]).phase i = .finished .internalErr)
        ∧ (votesFor (runRace c0 (initRace sA) [0, 0, 1]).store.votes c0.poll_id c0.voter).length
            = 1) := by
  constructor
  · exact C1_amended.1 _ ⟨[AdminOp.create inpTwo 0], rfl⟩
  · refine C1_amended.2 c0 sA 2 [0, 0, 1] ?_ (by decide) (by decide) ?_
    · exact ⟨⟨⟨1, 1, "A", 0⟩, by decide, rfl⟩,
        ⟨⟨1, "P", "", 0, none, true⟩, by decide, rfl, rfl⟩, by decide⟩
    · intro i hi
      interval_cases i
      · exact ⟨_, rfl⟩
      · exact ⟨_, rfl⟩

/-- C1 counterexample: under the schedule where all three attempts validate
before any inserts, attempt 0 wins, but attempts 1 and 2 finish with the
internal uniqueness-violation failure, not with DuplicateVote, refuting the
claim that the N-1 losers fail with DuplicateVote. -/
theorem C1_counterexample :
    (runRace c0 (initRace sA) [0, 1, 2, 0, 1, 2]).phase 0
      = .finished (.ok ⟨1, 1, 1, "v", 5⟩)
    ∧ (runRace c0 (initRace sA) [0, 1, 2, 0, 1, 2]).phase 1 = .finished .internalErr
    ∧ (runRace c0 (initRace sA) [0, 1, 2, 0, 1, 2]).phase 2 = .finished .internalErr
    ∧ Phase.finished CastResult.internalErr
        ≠ .finished (.err .DuplicateVote) := by decide

/-- C2: evaluating the engine at the failing input.  Two attempts for the
same (poll, identity) both pass the pre-check; the first insert wins and
the second insert violates the uniqueness constraint, which the create
method does not catch: the loser finishes with the internal failure instead
of the DuplicateVote error the claim requires. -/
theorem C2_uncaught_unique_violation :
    (runRace c0 (initRace sA) [0, 1, 0, 1]).phase 0
      = .finished (.ok ⟨1, 1, 1, "v", 5⟩)
    ∧ (runRace c0 (initRace sA) [0, 1, 0, 1]).phase 1 = .finished .internalErr
    ∧ Phase.finished CastResult.internalErr
        ≠ .finished (.err .DuplicateVote) := by decide

end PollApp
